import Mathlib

/-!
# gws write path and broadcaster

A shallow embedding of `writer.go` (frame generation, synchronous and queued
writes, the `Broadcaster`) together with the collaborators it calls that live
in other files of the package.  Stateful code is written in state-passing
style: every function takes the connection and the buffer pool and returns the
updated ones next to its Go result.
-/

namespace Gws

/-! ## Bytes, opcodes, errors -/

/-- A byte of a Go `[]byte`, kept as a natural number below 256. -/
abbrev Byte := Nat

/-- Go: `type Opcode uint8`. -/
abbrev Opcode := Nat

def OpcodeContinuation : Opcode := 0x0
def OpcodeText : Opcode := 0x1
def OpcodeBinary : Opcode := 0x2
def OpcodeCloseConnection : Opcode := 0x8
def OpcodePing : Opcode := 0x9
def OpcodePong : Opcode := 0xA

/-- Modelled from the spec: `Opcode.isDataFrame` is declared outside `writer.go`.
Spec section 3: "Data frames are Text/Binary; control frames are Close/Ping/Pong". -/
def isDataFrame (opcode : Opcode) : Bool :=
  opcode == OpcodeText || opcode == OpcodeBinary

/-- Control opcodes of spec section 3: Close, Ping, Pong. -/
def isControlFrame (opcode : Opcode) : Bool :=
  opcode == OpcodeCloseConnection || opcode == OpcodePing || opcode == OpcodePong

/-- Go `error` values that the write path produces or passes through.
`StatusCode c` is `internal.StatusCode` used as an error, `NewError c e` is
`internal.NewError(c, e)`, `foreign` stands for errors of the transport or the
compressor. -/
inductive GoError where
  | ErrConnClosed
  | ErrTextEncoding
  | StatusCode (code : Nat)
  | NewError (code : Nat) (err : GoError)
  | foreign (tag : Nat)
deriving DecidableEq, Repr

/-- Modelled from the spec: the status constants of package `internal` are not in
src. Spec section 7: "UnsupportedData ... maps to close 1007". -/
def CloseUnsupportedData : Nat := 1007

/-- Modelled from the spec: the status constants of package `internal` are not in
src. Spec section 7: "MessageTooLarge ... maps to close 1009". -/
def CloseMessageTooLarge : Nat := 1009

/-- The close code an error carries, if it carries one. -/
def GoError.closeCode : GoError → Option Nat
  | .StatusCode c => some c
  | .NewError c _ => some c
  | _ => none

/-! ## Buffers and the pool -/

/-- Go `bytes.Buffer`: the backing bytes and the read offset. `id` is the identity
of the pointer `*bytes.Buffer`. -/
structure Buffer where
  id : Nat
  buf : List Byte
  off : Nat
deriving DecidableEq, Repr

/-- Go `(*bytes.Buffer).Bytes`: the unread portion. -/
def Buffer.Bytes (b : Buffer) : List Byte := b.buf.drop b.off

/-- Go `(*bytes.Buffer).Len`: length of the unread portion. -/
def Buffer.Len (b : Buffer) : Nat := b.buf.length - b.off

/-- Go `(*bytes.Buffer).Write`: append at the end. -/
def Buffer.Write (b : Buffer) (p : List Byte) : Buffer :=
  { b with buf := b.buf ++ p }

/-- Go `(*bytes.Buffer).Next`: advance the read offset by `min n Len`. -/
def Buffer.Next (b : Buffer) (n : Nat) : Buffer :=
  { b with off := b.off + min n b.Len }

/-- Store through the slice returned by `Bytes()`: that slice aliases the unread
portion, so writing `contents` back replaces it in place. -/
def Buffer.setBytes (b : Buffer) (contents : List Byte) : Buffer :=
  { b with buf := b.buf.take b.off ++ contents }

/-- Modelled from the spec: `binaryPool` is not in src. Spec 4.A: "`Get(n)` returns
an empty buffer with capacity >= n. `Put(buf)` returns it". The pool is kept as a
log: how many buffers were handed out and which buffers were put back. -/
structure BufferPool where
  issued : Nat
  returned : List Nat
deriving DecidableEq, Repr

/-- Modelled from the spec: `binaryPool.Get(n)`, an empty buffer of a fresh identity. -/
def BufferPool.Get (p : BufferPool) (_n : Nat) : Buffer × BufferPool :=
  ({ id := p.issued, buf := [], off := 0 }, { p with issued := p.issued + 1 })

/-- Modelled from the spec: `binaryPool.Put(b)`; a nil buffer is not pooled. -/
def BufferPool.Put (p : BufferPool) (b : Option Buffer) : BufferPool :=
  match b with
  | none => p
  | some b => { p with returned := b.id :: p.returned }

/-- Go builtin `copy(dst[off:], src)`: overwrite `dst` from position `off` with as
many elements of `src` as fit. -/
def copyAt (dst : List Byte) (off : Nat) (src : List Byte) : List Byte :=
  dst.take off ++ src.take (dst.length - off) ++ dst.drop (off + src.length)

/-! ## Masking and the frame header -/

/-- The four mask bytes drawn by the header generator for one client frame. -/
structure MaskKey where
  k0 : Byte
  k1 : Byte
  k2 : Byte
  k3 : Byte
deriving DecidableEq, Repr

def MaskKey.toList (k : MaskKey) : List Byte := [k.k0, k.k1, k.k2, k.k3]

def maskFrom (key : List Byte) : Nat → List Byte → List Byte
  | _, [] => []
  | i, x :: xs => (x ^^^ key.getD (i % 4) 0) :: maskFrom key (i + 1) xs

/-- Modelled from the spec: `internal.MaskXOR` is not in src. Spec 4.A: "XORs data
with the 4-byte key cyclically". -/
def MaskXOR (b : List Byte) (key : List Byte) : List Byte := maskFrom key 0 b

def frameHeaderSize : Nat := 14

/-- Go: `framePadding = frameHeader{}`, fourteen zero bytes. -/
def framePadding : List Byte := List.replicate frameHeaderSize 0

/-- Big-endian bytes of `n`, `k` of them. -/
def bigEndian : Nat → Nat → List Byte
  | 0, _ => []
  | k + 1, n => (n / 256 ^ k) % 256 :: bigEndian k n

/-- The bytes that the header generator fills in, per spec 4.B. -/
def headerBytes (isServer fin rsv1 : Bool) (opcode : Opcode) (n : Nat)
    (key : MaskKey) : List Byte :=
  let b0 := (if fin then 128 else 0) ||| (if rsv1 then 64 else 0) ||| opcode
  let masked := if isServer then 0 else 128
  let lengthField := if n ≤ 125 then n else if n ≤ 65535 then 126 else 127
  let ext := if n ≤ 125 then [] else if n ≤ 65535 then bigEndian 2 n else bigEndian 8 n
  [b0, masked ||| lengthField] ++ ext ++ (if isServer then [] else key.toList)

/-- Modelled from the spec: `frameHeader.GenerateHeader` is not in src. Spec 4.B gives
byte 0, byte 1, the extended length and the mask key. The result is the 14-byte
header array, the number of bytes of it in use, and the mask bytes (nil on a
server). `key` is the value of the random draw made on a client. -/
def GenerateHeader (isServer fin rsv1 : Bool) (opcode : Opcode) (n : Nat)
    (key : MaskKey) : List Byte × Nat × List Byte :=
  let used := headerBytes isServer fin rsv1 opcode n key
  (used ++ List.replicate (frameHeaderSize - used.length) 0, used.length,
    if isServer then [] else key.toList)

/-! ## UTF-8 validation -/

/-- State of the streaming validator: continuation bytes still expected and the
range the next continuation byte must fall in; `none` after a rejection. -/
abbrev Utf8State := Option (Nat × Nat × Nat)

def utf8Step (s : Utf8State) (b : Byte) : Utf8State :=
  match s with
  | none => none
  | some (0, _, _) =>
    if b < 0x80 then some (0, 0x80, 0xBF)
    else if 0xC2 ≤ b ∧ b ≤ 0xDF then some (1, 0x80, 0xBF)
    else if b = 0xE0 then some (2, 0xA0, 0xBF)
    else if b = 0xED then some (2, 0x80, 0x9F)
    else if 0xE1 ≤ b ∧ b ≤ 0xEF then some (2, 0x80, 0xBF)
    else if b = 0xF0 then some (3, 0x90, 0xBF)
    else if b = 0xF4 then some (3, 0x80, 0x8F)
    else if 0xF1 ≤ b ∧ b ≤ 0xF3 then some (3, 0x80, 0xBF)
    else none
  | some (k + 1, lo, hi) =>
    if lo ≤ b ∧ b ≤ hi then some (k, 0x80, 0xBF) else none

/-- Modelled from the spec: the UTF-8 validator is not in src. Spec 4.C: a DFA over
bytes that "rejects overlong encodings, surrogates, and values >U+10FFFF". -/
def utf8Valid (payload : List Byte) : Bool :=
  match payload.foldl utf8Step (some (0, 0x80, 0xBF)) with
  | some (0, _, _) => true
  | _ => false

/-! ## Connection state -/

structure Config where
  WriteMaxPayloadSize : Int
  CompressThreshold : Int
  CheckUtf8Enabled : Bool

/-- Spec section 3: `closed` is an atomic state in `{Open, Closing, Closed}`. -/
inductive ClosedState where
  | Open
  | Closing
  | Closed
deriving DecidableEq, Repr

/-- The transport `c.conn`: the bytes written to it so far and, when set, the error
its next write returns. -/
structure NetConn where
  written : List Byte
  failure : Option GoError
deriving DecidableEq, Repr

/-- Modelled from the spec: `internal.WriteN` is not in src. Spec 4.G: "write the
entire frame in one transport call (`WriteN` loops until done)". -/
def WriteN (conn : NetConn) (content : List Byte) : Option GoError × NetConn :=
  match conn.failure with
  | some e => (some e, conn)
  | none => (none, { conn with written := conn.written ++ content })

/-- The per-connection deflate context: its state and its transition. `run s p` is
the outcome of compressing `p` in state `s` and the state afterwards. -/
structure Compressor where
  state : Nat
  run : Nat → List Byte → Except GoError (List Byte) × Nat

/-- Which executor an `asyncJob` carries: the package-level `writeAsyncFunc` or the
broadcaster's method of the same name. -/
inductive Executor where
  | writeAsyncFunc
  | broadcast
deriving DecidableEq, Repr

/-- Go `asyncJob{socket, frame, execute}`; the job sits in the queue of its socket. -/
structure asyncJob where
  frame : Option Buffer
  execute : Executor
deriving DecidableEq, Repr

structure Conn where
  isServer : Bool
  compressEnabled : Bool
  config : Config
  closed : ClosedState
  conn : NetConn
  compressor : Compressor
  writeQueue : List asyncJob

/-- Modelled from the spec: `Conn.isClosed` is not in src. Spec 4.G: "Reject if
`closed != Open`". -/
def Conn.isClosed (c : Conn) : Bool :=
  decide (c.closed ≠ ClosedState.Open)

/-- Modelled from the spec: `Conn.isTextValid` is not in src. Spec 4.C and 4.G: the
write path validates a Text payload when `CheckUtf8Enabled` is set. -/
def Conn.isTextValid (c : Conn) (opcode : Opcode) (payload : List Byte) : Bool :=
  if !c.config.CheckUtf8Enabled then true
  else if opcode == OpcodeText then utf8Valid payload
  else true

/-- Modelled from the spec: `compressor.Compress(payload, buf)` is not in src. It
appends the deflate output to `buf` or fails; the context moves on either way. -/
def Compressor.Compress (z : Compressor) (payload : List Byte) (buf : Buffer) :
    Option GoError × Buffer × Compressor :=
  match z.run z.state payload with
  | (.ok out, s) => (none, buf.Write out, { z with state := s })
  | (.error e, s) => (some e, buf, { z with state := s })

/-- Go `workerQueue.Push`: the job joins the back of the FIFO. -/
def Conn.push (c : Conn) (job : asyncJob) : Conn :=
  { c with writeQueue := c.writeQueue ++ [job] }

/-- What the local close takes from outside `writer.go`: the text `err.Error()` of
each error value, the status code used for an error that carries none, and the
mask key drawn for the Close frame on a client. -/
structure Env where
  errorText : GoError → List Byte
  defaultCode : Nat
  closeKey : MaskKey

/-- The payload of the Close frame of a local close: the status code of the error
as two big-endian bytes, then the error text, cut to the 125 bytes a control frame
may carry (spec 4.J). -/
def closePayload (env : Env) (err : GoError) : List Byte :=
  (bigEndian 2 (err.closeCode.getD env.defaultCode) ++ env.errorText err).take 125

/-! ## writer.go -/

/-- Go `Conn.compressData`. -/
def Conn.compressData (c : Conn) (pool : BufferPool) (key : MaskKey) (opcode : Opcode)
    (payload : List Byte) : Except GoError Buffer × Conn × BufferPool :=
  let (buf, pool) := pool.Get (payload.length + frameHeaderSize)
  let buf := buf.Write framePadding
  let (err, buf, z) := c.compressor.Compress payload buf
  let c := { c with compressor := z }
  match err with
  | some e => (.error e, c, pool)
  | none =>
    let contents := buf.Bytes
    let payloadSize : Int := (buf.Len : Int) - (frameHeaderSize : Int)
    if payloadSize > c.config.WriteMaxPayloadSize then
      (.error (GoError.StatusCode CloseMessageTooLarge), c, pool)
    else
      let (header, headerLength, maskBytes) :=
        GenerateHeader c.isServer true true opcode payloadSize.toNat key
      let contents :=
        if !c.isServer then
          contents.take frameHeaderSize ++ MaskXOR (contents.drop frameHeaderSize) maskBytes
        else contents
      let contents := copyAt contents (frameHeaderSize - headerLength) (header.take headerLength)
      let buf := buf.setBytes contents
      let buf := buf.Next (frameHeaderSize - headerLength)
      (.ok buf, c, pool)

/-- Go `Conn.genFrame`. -/
def Conn.genFrame (c : Conn) (pool : BufferPool) (key : MaskKey) (opcode : Opcode)
    (payload : List Byte) : Except GoError Buffer × Conn × BufferPool :=
  if opcode == OpcodeText && !c.isTextValid opcode payload then
    (.error (GoError.NewError CloseUnsupportedData GoError.ErrTextEncoding), c, pool)
  else if c.compressEnabled && isDataFrame opcode
      && decide ((payload.length : Int) ≥ c.config.CompressThreshold) then
    c.compressData pool key opcode payload
  else
    let n := payload.length
    if (n : Int) > c.config.WriteMaxPayloadSize then
      (.error (GoError.StatusCode CloseMessageTooLarge), c, pool)
    else
      let (header, headerLength, maskBytes) := GenerateHeader c.isServer true false opcode n key
      let (buf, pool) := pool.Get (n + headerLength)
      let buf := buf.Write (header.take headerLength)
      let buf := buf.Write payload
      let contents := buf.Bytes
      let buf :=
        if !c.isServer then
          buf.setBytes (contents.take headerLength ++ MaskXOR (contents.drop headerLength) maskBytes)
        else buf
      (.ok buf, c, pool)

/-- Go `Conn.doWrite`. -/
def Conn.doWrite (c : Conn) (pool : BufferPool) (key : MaskKey) (opcode : Opcode)
    (payload : List Byte) : Option GoError × Conn × BufferPool :=
  match c.genFrame pool key opcode payload with
  | (.error err, c, pool) => (some err, c, pool)
  | (.ok frame, c, pool) =>
    let (err, conn) := WriteN c.conn frame.Bytes
    let pool := pool.Put (some frame)
    (err, { c with conn := conn }, pool)

/-- Modelled from the spec: `Conn.emitError` is not in src. A nil error reports
nothing. For any other error the connection performs the local close of spec 4.G
once: if `closed` is `Open` it is flipped, the Close frame with the code derived
from the error is sent through `doWrite` ("write after the close state is set ...
so that the close frame can be sent"), and the state ends as `Closed`. Closing the
transport and the `OnClose` callback lie outside the state kept here. -/
def Conn.emitError (env : Env) (c : Conn) (pool : BufferPool) (err : Option GoError) :
    Conn × BufferPool :=
  match err with
  | none => (c, pool)
  | some e =>
    if c.closed = ClosedState.Open then
      let c := { c with closed := ClosedState.Closing }
      let (_, c, pool) := c.doWrite pool env.closeKey OpcodeCloseConnection (closePayload env e)
      ({ c with closed := ClosedState.Closed }, pool)
    else
      (c, pool)

/-- Go `Conn.WriteMessage`. -/
def Conn.WriteMessage (env : Env) (c : Conn) (pool : BufferPool) (key : MaskKey)
    (opcode : Opcode) (payload : List Byte) : Option GoError × Conn × BufferPool :=
  if c.isClosed then
    (some GoError.ErrConnClosed, c, pool)
  else
    let (err, c, pool) := c.doWrite pool key opcode payload
    let (c, pool) := c.emitError env pool err
    (err, c, pool)

/-- Go `Conn.WritePing`. -/
def Conn.WritePing (env : Env) (c : Conn) (pool : BufferPool) (key : MaskKey)
    (payload : List Byte) : Option GoError × Conn × BufferPool :=
  c.WriteMessage env pool key OpcodePing payload

/-- Go `Conn.WritePong`. -/
def Conn.WritePong (env : Env) (c : Conn) (pool : BufferPool) (key : MaskKey)
    (payload : List Byte) : Option GoError × Conn × BufferPool :=
  c.WriteMessage env pool key OpcodePong payload

/-- Go `Conn.WriteString`; `internal.StringToBytes` reinterprets the string as its
bytes, so the argument is taken as bytes. -/
def Conn.WriteString (env : Env) (c : Conn) (pool : BufferPool) (key : MaskKey)
    (s : List Byte) : Option GoError × Conn × BufferPool :=
  c.WriteMessage env pool key OpcodeText s

/-- Go `Conn.WriteAsync`. -/
def Conn.WriteAsync (env : Env) (c : Conn) (pool : BufferPool) (key : MaskKey)
    (opcode : Opcode) (payload : List Byte) : Option GoError × Conn × BufferPool :=
  match c.genFrame pool key opcode payload with
  | (.error err, c, pool) =>
    let (c, pool) := c.emitError env pool (some err)
    (some err, c, pool)
  | (.ok frame, c, pool) =>
    let job : asyncJob := { frame := some frame, execute := Executor.writeAsyncFunc }
    (none, c.push job, pool)

/-- Go package-level `writeAsyncFunc`. -/
def writeAsyncFunc (socket : Conn) (pool : BufferPool) (frame : Option Buffer) :
    Option GoError × Conn × BufferPool :=
  if socket.isClosed then
    (some GoError.ErrConnClosed, socket, pool)
  else
    let (err, conn) := WriteN socket.conn ((frame.map Buffer.Bytes).getD [])
    let pool := pool.Put frame
    (err, { socket with conn := conn }, pool)

/-! ## Vocabulary for the frame claims -/

/-- The test of `genFrame` that sends a payload to `compressData`. -/
def Conn.compresses (c : Conn) (opcode : Opcode) (payload : List Byte) : Bool :=
  c.compressEnabled && isDataFrame opcode
    && decide ((payload.length : Int) ≥ c.config.CompressThreshold)

/-- The payload a frame generated for this call carries: the output of the
compressor when `genFrame` compresses (none when the compressor fails), the raw
payload otherwise. -/
def Conn.carried (c : Conn) (opcode : Opcode) (payload : List Byte) : Option (List Byte) :=
  if c.compresses opcode payload then
    match c.compressor.run c.compressor.state payload with
    | (.ok out, _) => some out
    | (.error _, _) => none
  else some payload

/-- The bytes of the Close frame that the local close sends for an error: the
header for a final, uncompressed Close frame and the close payload, masked with
the key of the local close on a client. -/
def Conn.closeFrame (c : Conn) (env : Env) (err : GoError) : List Byte :=
  headerBytes c.isServer true false OpcodeCloseConnection (closePayload env err).length
      env.closeKey
    ++ (if c.isServer then closePayload env err
        else MaskXOR (closePayload env err) env.closeKey.toList)

/-- Whether `genFrame` rejects the payload at its text check. -/
def Conn.textRejected (c : Conn) (opcode : Opcode) (payload : List Byte) : Bool :=
  opcode == OpcodeText && !c.isTextValid opcode payload

/-! ## Sample connections -/

/-- A compressor that stores: its output is its input. -/
def storeCompressor : Compressor := { state := 0, run := fun s p => (.ok p, s + 1) }

def sampleConfig : Config :=
  { WriteMaxPayloadSize := 1000, CompressThreshold := 4, CheckUtf8Enabled := true }

/-- An open server connection without compression. -/
def serverConn : Conn :=
  { isServer := true, compressEnabled := false, config := sampleConfig,
    closed := ClosedState.Open, conn := { written := [], failure := none },
    compressor := storeCompressor, writeQueue := [] }

/-- An open client connection with compression negotiated. -/
def clientConn : Conn :=
  { serverConn with isServer := false, compressEnabled := true }

/-- A server connection that allows one payload byte per frame. -/
def tinyConn : Conn :=
  { serverConn with config := { sampleConfig with WriteMaxPayloadSize := 1 } }

/-- A server connection whose closed state is `Closed`. -/
def closedConn : Conn :=
  { serverConn with closed := ClosedState.Closed }

def emptyPool : BufferPool := { issued := 0, returned := [] }

def sampleKey : MaskKey := ⟨0x11, 0x22, 0x33, 0x44⟩

/-- The text of `ErrTextEncoding`, "invalid text encoding". -/
def textEncodingText : List Byte := "invalid text encoding".toList.map Char.toNat

/-- Error texts, the normal-closure code 1000 for errors without a code, and a
fixed key for Close frames. -/
def sampleEnv : Env :=
  { errorText := fun e =>
      match e with
      | GoError.NewError _ GoError.ErrTextEncoding => textEncodingText
      | GoError.ErrTextEncoding => textEncodingText
      | _ => [],
    defaultCode := 1000,
    closeKey := ⟨0x0A, 0x0B, 0x0C, 0x0D⟩ }

/-! ## The broadcaster -/

/-- Go `broadcastMessageWrapper`; `once` records whether `sync.Once` has fired. -/
structure broadcastMessageWrapper where
  once : Bool
  err : Option GoError
  frame : Option Buffer
deriving DecidableEq, Repr

/-- Go `Broadcaster`; `msgs` is the two-element array, `state` the atomic int64. -/
structure Broadcaster where
  opcode : Opcode
  payload : List Byte
  msgs : broadcastMessageWrapper × broadcastMessageWrapper
  state : Int
deriving DecidableEq, Repr

/-- Go `math.MaxInt32`. -/
def MaxInt32 : Int := 2147483647

/-- Go `c.msgs[idx]` for `idx` in `{0, 1}`. -/
def Broadcaster.msg (c : Broadcaster) (idx : Nat) : broadcastMessageWrapper :=
  if idx = 0 then c.msgs.1 else c.msgs.2

/-- Store through the pointer `c.msgs[idx]`. -/
def Broadcaster.setMsg (c : Broadcaster) (idx : Nat) (m : broadcastMessageWrapper) :
    Broadcaster :=
  if idx = 0 then { c with msgs := (m, c.msgs.2) } else { c with msgs := (c.msgs.1, m) }

/-- Go `NewBroadcaster`. -/
def NewBroadcaster (opcode : Opcode) (payload : List Byte) : Broadcaster :=
  { opcode := opcode, payload := payload,
    msgs := ({ once := false, err := none, frame := none },
             { once := false, err := none, frame := none }),
    state := MaxInt32 }

/-- Go `Broadcaster.doClose`. -/
def Broadcaster.doClose (c : Broadcaster) (pool : BufferPool) : BufferPool :=
  (pool.Put c.msgs.1.frame).Put c.msgs.2.frame

/-- Go `Broadcaster.writeAsyncFunc`. -/
def Broadcaster.writeAsyncFunc (c : Broadcaster) (socket : Conn) (pool : BufferPool)
    (frame : Option Buffer) : Option GoError × Broadcaster × Conn × BufferPool :=
  if socket.isClosed then
    (some GoError.ErrConnClosed, c, socket, pool)
  else
    let (err, conn) := WriteN socket.conn ((frame.map Buffer.Bytes).getD [])
    let socket := { socket with conn := conn }
    let c := { c with state := c.state - 1 }
    if c.state == 0 then
      (err, c, socket, c.doClose pool)
    else
      (err, c, socket, pool)

/-- Go `internal.SelectValue(socket.compressEnabled, 1, 0)`. -/
def slotOf (socket : Conn) : Nat := if socket.compressEnabled then 1 else 0

/-- Go `Broadcaster.Broadcast`. -/
def Broadcaster.Broadcast (c : Broadcaster) (socket : Conn) (pool : BufferPool)
    (key : MaskKey) : Option GoError × Broadcaster × Conn × BufferPool :=
  let idx := slotOf socket
  let msg := c.msg idx
  let (msg, socket, pool) :=
    if msg.once then (msg, socket, pool)
    else
      match socket.genFrame pool key c.opcode c.payload with
      | (.ok frame, socket, pool) => ({ once := true, err := none, frame := some frame }, socket, pool)
      | (.error err, socket, pool) => ({ once := true, err := some err, frame := none }, socket, pool)
  let c := c.setMsg idx msg
  match msg.err with
  | some err => (some err, c, socket, pool)
  | none =>
    let c := { c with state := c.state + 1 }
    let job : asyncJob := { frame := msg.frame, execute := Executor.broadcast }
    (none, c, socket.push job, pool)

/-- The wrapper that `once.Do` leaves behind for a result of `genFrame`. -/
def wrapperOf (r : Except GoError Buffer) : broadcastMessageWrapper :=
  match r with
  | .ok frame => { once := true, err := none, frame := some frame }
  | .error err => { once := true, err := some err, frame := none }

/-- Go `Broadcaster.Close`. -/
def Broadcaster.Close (c : Broadcaster) (pool : BufferPool) : Broadcaster × BufferPool :=
  let c := { c with state := c.state + (-1) * MaxInt32 }
  if c.state == 0 then (c, c.doClose pool) else (c, pool)

/-! ## Interleavings of broadcaster operations -/

/-- One broadcaster, the connections it is used with (by index) and the pool. -/
structure World where
  sockets : Nat → Conn
  bc : Broadcaster
  binaryPool : BufferPool

/-- The atomic steps of an interleaving: a `Broadcast` call on a connection, the
`Close` call, and the write queue of a connection executing its oldest job. -/
inductive Op where
  | Broadcast (i : Nat) (key : MaskKey)
  | Close
  | run (i : Nat)
deriving DecidableEq, Repr

/-- The consumer of the write queue of `socket` takes the oldest job and calls its
executor. -/
def runJob (c : Broadcaster) (socket : Conn) (pool : BufferPool) :
    Broadcaster × Conn × BufferPool :=
  match socket.writeQueue with
  | [] => (c, socket, pool)
  | job :: rest =>
    let socket := { socket with writeQueue := rest }
    match job.execute with
    | Executor.writeAsyncFunc =>
      let (_, socket, pool) := writeAsyncFunc socket pool job.frame
      (c, socket, pool)
    | Executor.broadcast =>
      let (_, c, socket, pool) := c.writeAsyncFunc socket pool job.frame
      (c, socket, pool)

def step (w : World) : Op → World
  | Op.Broadcast i key =>
    let (_, c, socket, pool) := w.bc.Broadcast (w.sockets i) w.binaryPool key
    { sockets := Function.update w.sockets i socket, bc := c, binaryPool := pool }
  | Op.Close =>
    let (c, pool) := w.bc.Close w.binaryPool
    { w with bc := c, binaryPool := pool }
  | Op.run i =>
    let (c, socket, pool) := runJob w.bc (w.sockets i) w.binaryPool
    { sockets := Function.update w.sockets i socket, bc := c, binaryPool := pool }

def runOps (w : World) (ops : List Op) : World := ops.foldl step w

/-- A fresh broadcaster of a two-byte Binary message over copies of one connection. -/
def freshWorld (socket : Conn) : World :=
  { sockets := fun _ => socket, bc := NewBroadcaster OpcodeBinary [0x68, 0x69],
    binaryPool := emptyPool }

/-- An open server connection with compression negotiated. -/
def deflateConn : Conn :=
  { serverConn with compressEnabled := true }

/-- A fresh broadcaster of a five-byte Binary message; the connections of even index
have no compression, those of odd index have it. -/
def mixedWorld : World :=
  { sockets := fun i => if i % 2 = 0 then serverConn else deflateConn,
    bc := NewBroadcaster OpcodeBinary [1, 2, 3, 4, 5],
    binaryPool := emptyPool }

/-! ## Facts about headers, masking and buffer layout -/


theorem bigEndian_length (k n : Nat) : (bigEndian k n).length = k := by
  induction k with
  | zero => rfl
  | succ k ih => simp [bigEndian, ih]

theorem headerBytes_length_le (isServer fin rsv1 : Bool) (opcode : Opcode) (n : Nat)
    (key : MaskKey) : (headerBytes isServer fin rsv1 opcode n key).length ≤ frameHeaderSize := by
  unfold headerBytes frameHeaderSize
  simp only [List.length_append, List.length_cons, List.length_nil]
  split_ifs <;> simp [bigEndian_length, MaskKey.toList]

theorem GenerateHeader_take (isServer fin rsv1 : Bool) (opcode : Opcode) (n : Nat)
    (key : MaskKey) :
    (GenerateHeader isServer fin rsv1 opcode n key).1.take
      (GenerateHeader isServer fin rsv1 opcode n key).2.1
      = headerBytes isServer fin rsv1 opcode n key := by
  simp [GenerateHeader]

theorem GenerateHeader_length (isServer fin rsv1 : Bool) (opcode : Opcode) (n : Nat)
    (key : MaskKey) :
    (GenerateHeader isServer fin rsv1 opcode n key).2.1
      = (headerBytes isServer fin rsv1 opcode n key).length := by
  simp [GenerateHeader]

theorem maskFrom_length (key : List Byte) (i : Nat) (b : List Byte) :
    (maskFrom key i b).length = b.length := by
  induction b generalizing i with
  | nil => rfl
  | cons x xs ih => simp [maskFrom, ih]

theorem MaskXOR_length (b key : List Byte) : (MaskXOR b key).length = b.length :=
  maskFrom_length key 0 b


theorem copyAt_padding (body H : List Byte) (hle : H.length ≤ frameHeaderSize) :
    copyAt (framePadding ++ body) (frameHeaderSize - H.length) H
      = List.replicate (frameHeaderSize - H.length) 0 ++ H ++ body := by
  have h1 : List.take (frameHeaderSize - H.length) (framePadding ++ body)
      = List.replicate (frameHeaderSize - H.length) 0 := by
    rw [List.take_append_of_le_length (by simp [framePadding])]
    simp [framePadding, List.take_replicate]
  have h2 : List.take ((framePadding ++ body).length - (frameHeaderSize - H.length)) H = H := by
    apply List.take_of_length_le
    simp [framePadding]
    omega
  have h3 : List.drop (frameHeaderSize - H.length + H.length) (framePadding ++ body) = body := by
    have : frameHeaderSize - H.length + H.length = framePadding.length := by
      simp [framePadding]
      omega
    rw [this, List.drop_left]
  simp only [copyAt, h1, h2, h3]

/-! ## The paths through `genFrame` -/

theorem genFrame_text_error (c : Conn) (pool : BufferPool) (key : MaskKey)
    (opcode : Opcode) (payload : List Byte) (h : c.textRejected opcode payload = true) :
    c.genFrame pool key opcode payload
      = (.error (GoError.NewError CloseUnsupportedData GoError.ErrTextEncoding), c, pool) := by
  unfold Conn.textRejected at h
  simp only [Conn.genFrame, h, if_true]

theorem genFrame_compress_eq (c : Conn) (pool : BufferPool) (key : MaskKey)
    (opcode : Opcode) (payload : List Byte) (ht : c.textRejected opcode payload = false)
    (hc : c.compresses opcode payload = true) :
    c.genFrame pool key opcode payload = c.compressData pool key opcode payload := by
  unfold Conn.textRejected at ht
  unfold Conn.compresses at hc
  simp only [Conn.genFrame, ht, hc, if_true]
  simp

theorem genFrame_plain_too_large (c : Conn) (pool : BufferPool) (key : MaskKey)
    (opcode : Opcode) (payload : List Byte) (ht : c.textRejected opcode payload = false)
    (hc : c.compresses opcode payload = false)
    (hsize : (payload.length : Int) > c.config.WriteMaxPayloadSize) :
    c.genFrame pool key opcode payload
      = (.error (GoError.StatusCode CloseMessageTooLarge), c, pool) := by
  unfold Conn.textRejected at ht
  unfold Conn.compresses at hc
  simp only [Conn.genFrame, ht, hc, hsize, if_true]
  simp

theorem genFrame_plain_eq (c : Conn) (pool : BufferPool) (key : MaskKey)
    (opcode : Opcode) (payload : List Byte) (ht : c.textRejected opcode payload = false)
    (hc : c.compresses opcode payload = false)
    (hsize : (payload.length : Int) ≤ c.config.WriteMaxPayloadSize) :
    c.genFrame pool key opcode payload
      = (.ok ⟨pool.issued, headerBytes c.isServer true false opcode payload.length key
            ++ (if c.isServer then payload else MaskXOR payload key.toList), 0⟩,
          c, { pool with issued := pool.issued + 1 }) := by
  unfold Conn.textRejected at ht
  unfold Conn.compresses at hc
  have hsz : ¬ ((payload.length : Int) > c.config.WriteMaxPayloadSize) := not_lt.mpr hsize
  cases hs : c.isServer
  · simp only [Conn.genFrame, ht, hc, hsz, hs]
    simp [GenerateHeader, BufferPool.Get, Buffer.Write, Buffer.Bytes, Buffer.setBytes]
  · simp only [Conn.genFrame, ht, hc, hsz, hs]
    simp [GenerateHeader, BufferPool.Get, Buffer.Write, Buffer.Bytes, Buffer.setBytes]

theorem compressData_fail (c : Conn) (pool : BufferPool) (key : MaskKey)
    (opcode : Opcode) (payload : List Byte) (e : GoError) (s : Nat)
    (hz : c.compressor.run c.compressor.state payload = (.error e, s)) :
    (c.compressData pool key opcode payload).1 = .error e := by
  simp [Conn.compressData, Compressor.Compress, hz]

theorem compressData_too_large (c : Conn) (pool : BufferPool) (key : MaskKey)
    (opcode : Opcode) (payload Z : List Byte) (s : Nat)
    (hz : c.compressor.run c.compressor.state payload = (.ok Z, s))
    (hsize : (Z.length : Int) > c.config.WriteMaxPayloadSize) :
    (c.compressData pool key opcode payload).1
      = .error (GoError.StatusCode CloseMessageTooLarge) := by
  have hpad : framePadding.length = frameHeaderSize := by simp [framePadding]
  simp only [Conn.compressData, Compressor.Compress, hz, BufferPool.Get, Buffer.Write,
    Buffer.Len, List.nil_append, List.length_append, hpad]
  have hps : ((frameHeaderSize + Z.length - 0 : Nat) : Int) - (frameHeaderSize : Int)
      = (Z.length : Int) := by omega
  rw [hps]
  simp [hsize]

theorem compressData_eq (c : Conn) (pool : BufferPool) (key : MaskKey)
    (opcode : Opcode) (payload Z : List Byte) (s : Nat)
    (hz : c.compressor.run c.compressor.state payload = (.ok Z, s))
    (hsize : (Z.length : Int) ≤ c.config.WriteMaxPayloadSize) :
    c.compressData pool key opcode payload
      = (.ok ⟨pool.issued,
            List.replicate
                (frameHeaderSize - (headerBytes c.isServer true true opcode Z.length key).length) 0
              ++ headerBytes c.isServer true true opcode Z.length key
              ++ (if c.isServer then Z else MaskXOR Z key.toList),
            frameHeaderSize - (headerBytes c.isServer true true opcode Z.length key).length⟩,
          { c with compressor := { c.compressor with state := s } },
          { pool with issued := pool.issued + 1 }) := by
  have hsz : ¬ ((Z.length : Int) > c.config.WriteMaxPayloadSize) := not_lt.mpr hsize
  have hle := headerBytes_length_le c.isServer true true opcode Z.length key
  have hcomp : c.compressor.Compress payload
      ((pool.Get (payload.length + frameHeaderSize)).1.Write framePadding)
      = (none, ⟨pool.issued, framePadding ++ Z, 0⟩, { c.compressor with state := s }) := by
    simp [Compressor.Compress, hz, BufferPool.Get, Buffer.Write]
  have hpad : framePadding.length = frameHeaderSize := by simp [framePadding]
  simp only [Conn.compressData, hcomp]
  simp only [Buffer.Len, Buffer.Bytes, List.length_append, hpad, List.drop_zero]
  have hps : ((frameHeaderSize + Z.length - 0 : Nat) : Int) - (frameHeaderSize : Int)
      = (Z.length : Int) := by omega
  rw [hps]
  simp only [hsz, if_false, Int.toNat_ofNat]
  rw [GenerateHeader_take, GenerateHeader_length]
  have hm : (if (!c.isServer) = true then
        List.take frameHeaderSize (framePadding ++ Z) ++
          MaskXOR (List.drop frameHeaderSize (framePadding ++ Z))
            (GenerateHeader c.isServer true true opcode Z.length key).2.2
      else framePadding ++ Z)
      = framePadding ++ (if c.isServer then Z else MaskXOR Z key.toList) := by
    cases hs : c.isServer
    · simp [GenerateHeader, ← hpad]
    · simp
  rw [hm, copyAt_padding _ _ hle]
  simp [Buffer.setBytes, Buffer.Next, Buffer.Len, BufferPool.Get]

/-! ## The local close -/

theorem close_not_rejected (c : Conn) (payload : List Byte) :
    c.textRejected OpcodeCloseConnection payload = false
    ∧ c.compresses OpcodeCloseConnection payload = false := by
  constructor
  · simp [Conn.textRejected, OpcodeCloseConnection, OpcodeText]
  · simp [Conn.compresses, isDataFrame, OpcodeCloseConnection, OpcodeText, OpcodeBinary]

theorem doWrite_close_eq (c : Conn) (pool : BufferPool) (key : MaskKey) (payload : List Byte)
    (hsize : (payload.length : Int) ≤ c.config.WriteMaxPayloadSize) :
    c.doWrite pool key OpcodeCloseConnection payload
      = ((WriteN c.conn
            (headerBytes c.isServer true false OpcodeCloseConnection payload.length key
              ++ (if c.isServer then payload else MaskXOR payload key.toList))).1,
          { c with conn := (WriteN c.conn
              (headerBytes c.isServer true false OpcodeCloseConnection payload.length key
                ++ (if c.isServer then payload else MaskXOR payload key.toList))).2 },
          { issued := pool.issued + 1, returned := pool.issued :: pool.returned }) := by
  have hg := genFrame_plain_eq c pool key OpcodeCloseConnection payload
    (close_not_rejected c payload).1 (close_not_rejected c payload).2 hsize
  simp only [Conn.doWrite, hg]
  simp [Buffer.Bytes, BufferPool.Put]

theorem doWrite_close_too_large (c : Conn) (pool : BufferPool) (key : MaskKey)
    (payload : List Byte)
    (hsize : (payload.length : Int) > c.config.WriteMaxPayloadSize) :
    c.doWrite pool key OpcodeCloseConnection payload
      = (some (GoError.StatusCode CloseMessageTooLarge), c, pool) := by
  have hg := genFrame_plain_too_large c pool key OpcodeCloseConnection payload
    (close_not_rejected c payload).1 (close_not_rejected c payload).2 hsize
  simp only [Conn.doWrite, hg]

theorem WriteN_written (conn : NetConn) (content : List Byte) :
    (WriteN conn content).2.written
      = if conn.failure = none then conn.written ++ content else conn.written := by
  unfold WriteN
  cases h : conn.failure <;> simp

/-- The connection after `emitError` with a non-nil error: the queue is as before,
and the transport holds either nothing new or the Close frame. -/
theorem emitError_some (env : Env) (c : Conn) (pool : BufferPool) (e : GoError) :
    (c.emitError env pool (some e)).1.writeQueue = c.writeQueue
    ∧ (c.emitError env pool (some e)).1.conn.written
        = (if c.closed = ClosedState.Open ∧ c.conn.failure = none
              ∧ ((closePayload env e).length : Int) ≤ c.config.WriteMaxPayloadSize
            then c.conn.written ++ c.closeFrame env e else c.conn.written) := by
  unfold Conn.emitError
  by_cases ho : c.closed = ClosedState.Open
  · simp only [ho, if_true, true_and]
    by_cases hsize : ((closePayload env e).length : Int) ≤ c.config.WriteMaxPayloadSize
    · rw [doWrite_close_eq _ pool env.closeKey _ (by simpa using hsize)]
      simp only [WriteN_written, hsize, and_true, true_and]
      rfl
    · rw [doWrite_close_too_large _ pool env.closeKey _ (by simpa using hsize)]
      simp only [hsize, and_false, if_false, true_and]
  · simp [ho]

theorem closePayload_coded (env : Env) (code : Nat) (inner : GoError) :
    closePayload env (GoError.NewError code inner)
      = [(code / 256) % 256, code % 256]
        ++ (env.errorText (GoError.NewError code inner)).take 123 := by
  simp [closePayload, GoError.closeCode, bigEndian, List.take_succ_cons]

theorem closeFrame_head (c : Conn) (env : Env) (e : GoError) :
    (c.closeFrame env e).head? = some 0x88 := by
  simp [Conn.closeFrame, headerBytes, OpcodeCloseConnection]

/-! ## Claims about the write path -/

/-- C1: on a connection whose closed state is not Open, WriteMessage, and with it
WritePing, WritePong and WriteString, returns ErrConnClosed for every opcode and
payload and leaves the connection (transport, queue, compressor) and the buffer
pool exactly as they were: no frame is built and no byte is written. -/
theorem WriteMessage_closed (env : Env) (c : Conn) (pool : BufferPool) (key : MaskKey)
    (opcode : Opcode) (payload : List Byte) (h : c.closed ≠ ClosedState.Open) :
    c.WriteMessage env pool key opcode payload = (some GoError.ErrConnClosed, c, pool)
    ∧ c.WritePing env pool key payload = (some GoError.ErrConnClosed, c, pool)
    ∧ c.WritePong env pool key payload = (some GoError.ErrConnClosed, c, pool)
    ∧ c.WriteString env pool key payload = (some GoError.ErrConnClosed, c, pool) := by
  have hc : c.isClosed = true := by simp [Conn.isClosed, h]
  simp [Conn.WritePing, Conn.WritePong, Conn.WriteString, Conn.WriteMessage, hc]

/-- C1 at a connection in state Closed, a Ping with a three-byte payload. -/
theorem WriteMessage_closed_witness :
    closedConn.closed ≠ ClosedState.Open
    ∧ closedConn.WritePing sampleEnv emptyPool sampleKey [1, 2, 3]
        = (some GoError.ErrConnClosed, closedConn, emptyPool) :=
  ⟨by decide,
    (WriteMessage_closed sampleEnv closedConn emptyPool sampleKey OpcodePing [1, 2, 3]
      (by decide)).2.1⟩

/-- C2 as stated fails: on the open server connection with UTF-8 checking on,
WriteMessage with the Text payload C3 28 does put bytes on the transport, namely
the Close frame of the local close that emitError performs: 88 17, the code 03 EF
(1007) and the 21 bytes of the error text. The message itself is not written. -/
theorem WriteMessage_invalid_text_sends_close :
    serverConn.closed = ClosedState.Open
    ∧ serverConn.config.CheckUtf8Enabled = true
    ∧ utf8Valid [0xC3, 0x28] = false
    ∧ serverConn.conn.written = []
    ∧ (serverConn.WriteMessage sampleEnv emptyPool sampleKey OpcodeText [0xC3, 0x28]).1
        = some (GoError.NewError CloseUnsupportedData GoError.ErrTextEncoding)
    ∧ (serverConn.WriteMessage sampleEnv emptyPool sampleKey OpcodeText
          [0xC3, 0x28]).2.1.conn.written
        = [0x88, 23, 0x03, 0xEF] ++ textEncodingText
    ∧ (serverConn.WriteMessage sampleEnv emptyPool sampleKey OpcodeText
          [0xC3, 0x28]).2.1.conn.written ≠ serverConn.conn.written := by
  refine ⟨rfl, rfl, by decide, rfl, by decide, by decide, by decide⟩

/-- C2, amended: on a connection with UTF-8 checking enabled, a Text payload that is
not valid UTF-8 is rejected by isTextValid; genFrame returns no frame and the error
with close code 1007 wrapping ErrTextEncoding, leaving connection and pool as they
were. On an open connection WriteMessage writes no byte of the message: it hands
that same error to emitError on the untouched connection and returns it, and
WriteAsync does the same. The local close of emitError pushes no job (the write
queue is unchanged) and the only bytes it can add to the transport are those of one
Close frame, first byte 0x88, payload 03 EF (1007) followed by the error text; it
adds exactly that frame when the connection is open, the transport healthy and the
close payload within WriteMaxPayloadSize, and nothing otherwise. -/
theorem genFrame_invalid_text (env : Env) (c : Conn) (pool : BufferPool) (key : MaskKey)
    (payload : List Byte) (hcheck : c.config.CheckUtf8Enabled = true)
    (hbad : utf8Valid payload = false) :
    c.isTextValid OpcodeText payload = false
    ∧ c.genFrame pool key OpcodeText payload
        = (.error (GoError.NewError CloseUnsupportedData GoError.ErrTextEncoding), c, pool)
    ∧ (GoError.NewError CloseUnsupportedData GoError.ErrTextEncoding).closeCode = some 1007
    ∧ (c.closed = ClosedState.Open →
        c.WriteMessage env pool key OpcodeText payload
          = (some (GoError.NewError CloseUnsupportedData GoError.ErrTextEncoding),
              c.emitError env pool
                (some (GoError.NewError CloseUnsupportedData GoError.ErrTextEncoding))))
    ∧ c.WriteAsync env pool key OpcodeText payload
        = (some (GoError.NewError CloseUnsupportedData GoError.ErrTextEncoding),
            c.emitError env pool
              (some (GoError.NewError CloseUnsupportedData GoError.ErrTextEncoding)))
    ∧ (c.WriteAsync env pool key OpcodeText payload).2.1.writeQueue = c.writeQueue
    ∧ (c.closed = ClosedState.Open →
        (c.WriteMessage env pool key OpcodeText payload).2.1.writeQueue = c.writeQueue)
    ∧ (c.emitError env pool
          (some (GoError.NewError CloseUnsupportedData GoError.ErrTextEncoding))).1.conn.written
        = (if c.closed = ClosedState.Open ∧ c.conn.failure = none
              ∧ ((closePayload env
                    (GoError.NewError CloseUnsupportedData GoError.ErrTextEncoding)).length : Int)
                  ≤ c.config.WriteMaxPayloadSize
            then c.conn.written
              ++ c.closeFrame env (GoError.NewError CloseUnsupportedData GoError.ErrTextEncoding)
            else c.conn.written)
    ∧ closePayload env (GoError.NewError CloseUnsupportedData GoError.ErrTextEncoding)
        = [0x03, 0xEF]
          ++ (env.errorText
                (GoError.NewError CloseUnsupportedData GoError.ErrTextEncoding)).take 123
    ∧ (c.closeFrame env
          (GoError.NewError CloseUnsupportedData GoError.ErrTextEncoding)).head? = some 0x88 := by
  have h : c.isTextValid OpcodeText payload = false := by
    simp [Conn.isTextValid, hcheck, hbad]
  have hg : c.genFrame pool key OpcodeText payload
      = (.error (GoError.NewError CloseUnsupportedData GoError.ErrTextEncoding), c, pool) :=
    genFrame_text_error c pool key OpcodeText payload (by simp [Conn.textRejected, h])
  have he := emitError_some env c pool
    (GoError.NewError CloseUnsupportedData GoError.ErrTextEncoding)
  have hm : c.closed = ClosedState.Open →
      c.WriteMessage env pool key OpcodeText payload
        = (some (GoError.NewError CloseUnsupportedData GoError.ErrTextEncoding),
            c.emitError env pool
              (some (GoError.NewError CloseUnsupportedData GoError.ErrTextEncoding))) := by
    intro ho
    have hc : c.isClosed = false := by simp [Conn.isClosed, ho]
    simp [Conn.WriteMessage, Conn.doWrite, hc, hg]
  have ha : c.WriteAsync env pool key OpcodeText payload
      = (some (GoError.NewError CloseUnsupportedData GoError.ErrTextEncoding),
          c.emitError env pool
            (some (GoError.NewError CloseUnsupportedData GoError.ErrTextEncoding))) := by
    simp [Conn.WriteAsync, hg]
  refine ⟨h, hg, rfl, hm, ha, ?_, ?_, he.2, ?_, closeFrame_head c env _⟩
  · rw [ha]
    exact he.1
  · intro ho
    rw [hm ho]
    exact he.1
  · rw [closePayload_coded]
    rfl

/-- C2 amended, at the open server connection and the bytes C3 28, which are not
UTF-8: WriteMessage returns the 1007 error, the queue stays empty and the transport
receives the Close frame and nothing else. -/
theorem genFrame_invalid_text_witness :
    serverConn.config.CheckUtf8Enabled = true
    ∧ utf8Valid [0xC3, 0x28] = false
    ∧ serverConn.closed = ClosedState.Open
    ∧ serverConn.WriteMessage sampleEnv emptyPool sampleKey OpcodeText [0xC3, 0x28]
        = (some (GoError.NewError CloseUnsupportedData GoError.ErrTextEncoding),
            serverConn.emitError sampleEnv emptyPool
              (some (GoError.NewError CloseUnsupportedData GoError.ErrTextEncoding)))
    ∧ (serverConn.WriteMessage sampleEnv emptyPool sampleKey OpcodeText
          [0xC3, 0x28]).2.1.writeQueue = serverConn.writeQueue
    ∧ (serverConn.WriteAsync sampleEnv emptyPool sampleKey OpcodeText
          [0xC3, 0x28]).2.1.writeQueue = serverConn.writeQueue :=
  ⟨rfl, by decide, rfl,
    (genFrame_invalid_text sampleEnv serverConn emptyPool sampleKey [0xC3, 0x28]
      rfl (by decide)).2.2.2.1 rfl,
    (genFrame_invalid_text sampleEnv serverConn emptyPool sampleKey [0xC3, 0x28]
      rfl (by decide)).2.2.2.2.2.2.1 rfl,
    (genFrame_invalid_text sampleEnv serverConn emptyPool sampleKey [0xC3, 0x28]
      rfl (by decide)).2.2.2.2.2.1⟩

/-- C3 as stated fails: on a connection that allows one payload byte, the Text
payload C3 28 is carried raw and is two bytes long, yet genFrame answers with the
text-encoding error of code 1007, not with CloseMessageTooLarge. -/
theorem genFrame_too_large_not_reported :
    tinyConn.carried OpcodeText [0xC3, 0x28] = some [0xC3, 0x28]
    ∧ (([0xC3, 0x28] : List Byte).length : Int) > tinyConn.config.WriteMaxPayloadSize
    ∧ (tinyConn.genFrame emptyPool sampleKey OpcodeText [0xC3, 0x28]).1
        = .error (GoError.NewError CloseUnsupportedData GoError.ErrTextEncoding)
    ∧ (tinyConn.genFrame emptyPool sampleKey OpcodeText [0xC3, 0x28]).1
        ≠ .error (GoError.StatusCode CloseMessageTooLarge) := by
  have hg := genFrame_text_error tinyConn emptyPool sampleKey OpcodeText [0xC3, 0x28]
    (by decide)
  refine ⟨by decide, by decide, by rw [hg], ?_⟩
  rw [hg]
  intro h
  cases h

/-- C3, amended: a frame returned by genFrame carries a payload (raw, or the
compressor output on the compressed path) of length at most WriteMaxPayloadSize,
and the frame is that payload behind its header; and whenever the payload passes
the text check and the carried length exceeds WriteMaxPayloadSize, genFrame
returns CloseMessageTooLarge and no frame. -/
theorem genFrame_size_limit (c : Conn) (pool : BufferPool) (key : MaskKey)
    (opcode : Opcode) (payload : List Byte) :
    (∀ frame : Buffer, (c.genFrame pool key opcode payload).1 = .ok frame →
      ∃ P : List Byte, c.carried opcode payload = some P
        ∧ (P.length : Int) ≤ c.config.WriteMaxPayloadSize
        ∧ frame.Len
            = (headerBytes c.isServer true (c.compresses opcode payload) opcode P.length
                key).length + P.length)
    ∧ (∀ P : List Byte, c.carried opcode payload = some P →
        (P.length : Int) > c.config.WriteMaxPayloadSize →
        c.textRejected opcode payload = false →
        (c.genFrame pool key opcode payload).1
          = .error (GoError.StatusCode CloseMessageTooLarge)) := by
  constructor
  · intro frame hf
    cases ht : c.textRejected opcode payload
    · cases hc : c.compresses opcode payload
      · by_cases hsize : (payload.length : Int) ≤ c.config.WriteMaxPayloadSize
        · refine ⟨payload, by simp [Conn.carried, hc], hsize, ?_⟩
          rw [genFrame_plain_eq c pool key opcode payload ht hc hsize] at hf
          simp only [Except.ok.injEq] at hf
          subst hf
          cases hs : c.isServer <;> simp [Buffer.Len, MaskXOR_length]
        · rw [genFrame_plain_too_large c pool key opcode payload ht hc (not_le.mp hsize)] at hf
          cases hf
      · rw [genFrame_compress_eq c pool key opcode payload ht hc] at hf
        rcases hz : c.compressor.run c.compressor.state payload with ⟨r, s⟩
        cases r with
        | error e =>
          rw [compressData_fail c pool key opcode payload e s hz] at hf
          cases hf
        | ok Z =>
          by_cases hsize : (Z.length : Int) ≤ c.config.WriteMaxPayloadSize
          · refine ⟨Z, by simp [Conn.carried, hc, hz], hsize, ?_⟩
            have hle := headerBytes_length_le c.isServer true true opcode Z.length key
            rw [compressData_eq c pool key opcode payload Z s hz hsize] at hf
            simp only [Except.ok.injEq] at hf
            subst hf
            cases hs : c.isServer <;> simp [Buffer.Len, MaskXOR_length]
          · rw [compressData_too_large c pool key opcode payload Z s hz (not_le.mp hsize)] at hf
            cases hf
    · rw [genFrame_text_error c pool key opcode payload ht] at hf
      cases hf
  · intro P hP hsize ht
    cases hc : c.compresses opcode payload
    · have hPe : P = payload := by
        simp [Conn.carried, hc] at hP
        exact hP.symm
      subst hPe
      rw [genFrame_plain_too_large c pool key opcode P ht hc hsize]
    · rw [genFrame_compress_eq c pool key opcode payload ht hc]
      rcases hz : c.compressor.run c.compressor.state payload with ⟨r, s⟩
      cases r with
      | error e => simp [Conn.carried, hc, hz] at hP
      | ok Z =>
        have hPe : P = Z := by
          simp [Conn.carried, hc, hz] at hP
          exact hP.symm
        subst hPe
        exact compressData_too_large c pool key opcode payload P s hz hsize

/-- C3 amended, at the one-byte connection: a valid two-byte Text payload is
refused with CloseMessageTooLarge. -/
theorem genFrame_size_limit_witness :
    (tinyConn.carried OpcodeText [0x68, 0x69] = some [0x68, 0x69]
      ∧ (([0x68, 0x69] : List Byte).length : Int) > tinyConn.config.WriteMaxPayloadSize
      ∧ tinyConn.textRejected OpcodeText [0x68, 0x69] = false
      ∧ (tinyConn.genFrame emptyPool sampleKey OpcodeText [0x68, 0x69]).1
          = .error (GoError.StatusCode CloseMessageTooLarge))
    ∧ ((serverConn.genFrame emptyPool sampleKey OpcodeText [0x68, 0x69]).1
          = .ok ⟨0, [0x81, 2, 0x68, 0x69], 0⟩
      ∧ ∃ P : List Byte, serverConn.carried OpcodeText [0x68, 0x69] = some P
          ∧ (P.length : Int) ≤ serverConn.config.WriteMaxPayloadSize
          ∧ (⟨0, [0x81, 2, 0x68, 0x69], 0⟩ : Buffer).Len
              = (headerBytes serverConn.isServer true
                  (serverConn.compresses OpcodeText [0x68, 0x69]) OpcodeText P.length
                  sampleKey).length + P.length) :=
  ⟨⟨by decide, by decide, by decide,
      (genFrame_size_limit tinyConn emptyPool sampleKey OpcodeText [0x68, 0x69]).2
        [0x68, 0x69] (by decide) (by decide) (by decide)⟩,
    rfl,
    (genFrame_size_limit serverConn emptyPool sampleKey OpcodeText [0x68, 0x69]).1
      ⟨0, [0x81, 2, 0x68, 0x69], 0⟩ rfl⟩

/-- C4: for a payload that passes the text check and the size limit, when
compression was not negotiated, or the opcode is a control opcode, or the payload
is shorter than CompressThreshold, genFrame does not compress (the connection and
its compressor are returned unchanged) and the frame reads exactly H ++ P: H the
header of GenerateHeader(isServer, fin = true, rsv1 = false, opcode, len payload),
P the payload on a server and MaskXOR of it with the generated key on a client;
its length is headerLength + len payload. -/
theorem genFrame_uncompressed (c : Conn) (pool : BufferPool) (key : MaskKey)
    (opcode : Opcode) (payload : List Byte)
    (htext : c.textRejected opcode payload = false)
    (hsize : (payload.length : Int) ≤ c.config.WriteMaxPayloadSize)
    (hpath : c.compressEnabled = false ∨ isControlFrame opcode = true
      ∨ (payload.length : Int) < c.config.CompressThreshold) :
    ∃ frame : Buffer,
      c.genFrame pool key opcode payload
          = (.ok frame, c, { pool with issued := pool.issued + 1 })
      ∧ frame.Bytes
          = (GenerateHeader c.isServer true false opcode payload.length key).1.take
              (GenerateHeader c.isServer true false opcode payload.length key).2.1
            ++ (if c.isServer then payload
                else MaskXOR payload
                  (GenerateHeader c.isServer true false opcode payload.length key).2.2)
      ∧ frame.Len
          = (GenerateHeader c.isServer true false opcode payload.length key).2.1
            + payload.length := by
  have hno : c.compresses opcode payload = false := by
    unfold Conn.compresses
    rcases hpath with h | h | h
    · simp [h]
    · have : isDataFrame opcode = false := by
        simp only [isControlFrame, isDataFrame, OpcodeCloseConnection, OpcodePing, OpcodePong,
          OpcodeText, OpcodeBinary, Bool.or_eq_true, beq_iff_eq] at h ⊢
        rcases h with (h | h) | h <;> simp [h]
      simp [this]
    · have : ¬ ((payload.length : Int) ≥ c.config.CompressThreshold) := not_le.mpr h
      simp [this]
  refine ⟨_, genFrame_plain_eq c pool key opcode payload htext hno hsize, ?_, ?_⟩
  · rw [GenerateHeader_take]
    cases hs : c.isServer <;> simp [Buffer.Bytes, GenerateHeader]
  · rw [GenerateHeader_length]
    cases hs : c.isServer <;> simp [Buffer.Len, MaskXOR_length]

/-- C4 at the client connection (compression negotiated, threshold 4) and a
two-byte Text payload: the frame is the masked header followed by the payload
XORed with the key 11 22 33 44. -/
theorem genFrame_uncompressed_witness :
    clientConn.textRejected OpcodeText [0x68, 0x69] = false
    ∧ (([0x68, 0x69] : List Byte).length : Int) ≤ clientConn.config.WriteMaxPayloadSize
    ∧ (([0x68, 0x69] : List Byte).length : Int) < clientConn.config.CompressThreshold
    ∧ ∃ frame : Buffer,
        clientConn.genFrame emptyPool sampleKey OpcodeText [0x68, 0x69]
            = (.ok frame, clientConn, { emptyPool with issued := emptyPool.issued + 1 })
        ∧ frame.Bytes
            = (GenerateHeader clientConn.isServer true false OpcodeText
                  ([0x68, 0x69] : List Byte).length sampleKey).1.take
                (GenerateHeader clientConn.isServer true false OpcodeText
                  ([0x68, 0x69] : List Byte).length sampleKey).2.1
              ++ (if clientConn.isServer then [0x68, 0x69]
                  else MaskXOR [0x68, 0x69]
                    (GenerateHeader clientConn.isServer true false OpcodeText
                      ([0x68, 0x69] : List Byte).length sampleKey).2.2)
        ∧ frame.Len
            = (GenerateHeader clientConn.isServer true false OpcodeText
                ([0x68, 0x69] : List Byte).length sampleKey).2.1
              + ([0x68, 0x69] : List Byte).length :=
  ⟨by decide, by decide, by decide,
    genFrame_uncompressed clientConn emptyPool sampleKey OpcodeText [0x68, 0x69]
      (by decide) (by decide) (Or.inr (Or.inr (by decide)))⟩

/-- C5: with compression negotiated, a Text or Binary opcode, a payload of at
least CompressThreshold bytes and a compressor that succeeds with output Z no
longer than WriteMaxPayloadSize, the buffer returned by compressData reads exactly
H ++ Z2: H the header of GenerateHeader(isServer, fin = true, rsv1 = true, opcode,
len Z), Z2 = Z on a server and MaskXOR of Z with the generated key on a client. The
read offset plus the header length is frameHeaderSize, so no padding byte is left in
front of H, the readable length is headerLength + len Z, and genFrame returns this
very result once the text check has passed. -/
theorem compressData_layout (c : Conn) (pool : BufferPool) (key : MaskKey)
    (opcode : Opcode) (payload Z : List Byte) (s : Nat)
    (hen : c.compressEnabled = true)
    (hop : opcode = OpcodeText ∨ opcode = OpcodeBinary)
    (hlen : (payload.length : Int) ≥ c.config.CompressThreshold)
    (hz : c.compressor.run c.compressor.state payload = (.ok Z, s))
    (hsize : (Z.length : Int) ≤ c.config.WriteMaxPayloadSize) :
    ∃ frame : Buffer,
      (c.compressData pool key opcode payload).1 = .ok frame
      ∧ frame.Bytes
          = (GenerateHeader c.isServer true true opcode Z.length key).1.take
              (GenerateHeader c.isServer true true opcode Z.length key).2.1
            ++ (if c.isServer then Z
                else MaskXOR Z (GenerateHeader c.isServer true true opcode Z.length key).2.2)
      ∧ frame.Len = (GenerateHeader c.isServer true true opcode Z.length key).2.1 + Z.length
      ∧ frame.off + (GenerateHeader c.isServer true true opcode Z.length key).2.1
          = frameHeaderSize
      ∧ frame.buf.length = frameHeaderSize + Z.length
      ∧ (c.textRejected opcode payload = false →
          c.genFrame pool key opcode payload = c.compressData pool key opcode payload) := by
  have hle := headerBytes_length_le c.isServer true true opcode Z.length key
  have hgen : c.textRejected opcode payload = false →
      c.genFrame pool key opcode payload = c.compressData pool key opcode payload := by
    intro ht
    have hd : isDataFrame opcode = true := by
      rcases hop with h | h <;> simp [h, isDataFrame, OpcodeText, OpcodeBinary]
    exact genFrame_compress_eq c pool key opcode payload ht
      (by simp [Conn.compresses, hen, hd, hlen])
  rw [GenerateHeader_take, GenerateHeader_length]
  refine ⟨_, by rw [compressData_eq c pool key opcode payload Z s hz hsize], ?_, ?_, ?_, ?_,
    hgen⟩
  · cases hs : c.isServer <;> simp [Buffer.Bytes, GenerateHeader]
  · cases hs : c.isServer <;> simp [Buffer.Len, MaskXOR_length]
  · simp only []
    omega
  · have hl : (if c.isServer then Z else MaskXOR Z key.toList).length = Z.length := by
      cases c.isServer <;> simp [MaskXOR_length]
    simp only [List.length_append, List.length_replicate, hl]
    omega

/-- C5 at the client connection and a five-byte Text payload stored by the
compressor: the returned buffer reads as header and masked output, eight padding
bytes skipped. -/
theorem compressData_layout_witness :
    clientConn.compressEnabled = true
    ∧ (([1, 2, 3, 4, 5] : List Byte).length : Int) ≥ clientConn.config.CompressThreshold
    ∧ clientConn.compressor.run clientConn.compressor.state [1, 2, 3, 4, 5]
        = (.ok [1, 2, 3, 4, 5], 1)
    ∧ ∃ frame : Buffer,
        (clientConn.compressData emptyPool sampleKey OpcodeText [1, 2, 3, 4, 5]).1 = .ok frame
        ∧ frame.Bytes
            = (GenerateHeader clientConn.isServer true true OpcodeText
                  ([1, 2, 3, 4, 5] : List Byte).length sampleKey).1.take
                (GenerateHeader clientConn.isServer true true OpcodeText
                  ([1, 2, 3, 4, 5] : List Byte).length sampleKey).2.1
              ++ (if clientConn.isServer then [1, 2, 3, 4, 5]
                  else MaskXOR [1, 2, 3, 4, 5]
                    (GenerateHeader clientConn.isServer true true OpcodeText
                      ([1, 2, 3, 4, 5] : List Byte).length sampleKey).2.2)
        ∧ frame.Len
            = (GenerateHeader clientConn.isServer true true OpcodeText
                ([1, 2, 3, 4, 5] : List Byte).length sampleKey).2.1
              + ([1, 2, 3, 4, 5] : List Byte).length
        ∧ frame.off
            + (GenerateHeader clientConn.isServer true true OpcodeText
                ([1, 2, 3, 4, 5] : List Byte).length sampleKey).2.1
            = frameHeaderSize
        ∧ frame.buf.length = frameHeaderSize + ([1, 2, 3, 4, 5] : List Byte).length
        ∧ (clientConn.textRejected OpcodeText [1, 2, 3, 4, 5] = false →
            clientConn.genFrame emptyPool sampleKey OpcodeText [1, 2, 3, 4, 5]
              = clientConn.compressData emptyPool sampleKey OpcodeText [1, 2, 3, 4, 5]) :=
  ⟨rfl, by decide, rfl,
    compressData_layout clientConn emptyPool sampleKey OpcodeText [1, 2, 3, 4, 5]
      [1, 2, 3, 4, 5] 1 rfl (Or.inl rfl) (by decide) rfl (by decide)⟩

/-- C6 fails on the code: WritePing on an open server connection with a payload of
126 zero bytes succeeds and puts on the transport a Ping frame (first byte 0x89)
with the 16-bit extended length 126 and all 126 payload bytes. Nothing on the
write path limits a control frame to 125 bytes. -/
theorem WritePing_oversized (env : Env) :
    serverConn.WritePing env emptyPool sampleKey (List.replicate 126 0)
      = (none,
          { serverConn with
            conn := { written := [0x89, 126, 0, 126] ++ List.replicate 126 0, failure := none } },
          { issued := 1, returned := [0] }) := by
  have general : ∀ p : List Byte, p.length = 126 →
      serverConn.WritePing env emptyPool sampleKey p
        = (none,
            { serverConn with
              conn := { written := [0x89, 126, 0, 126] ++ p, failure := none } },
            { issued := 1, returned := [0] }) := by
    intro p hp
    have hg := genFrame_plain_eq serverConn emptyPool sampleKey OpcodePing p
      (by simp [Conn.textRejected, OpcodePing, OpcodeText])
      (by simp [Conn.compresses, serverConn])
      (by rw [hp]; decide)
    have hh : headerBytes true true false OpcodePing 126 sampleKey = [0x89, 126, 0, 126] := by
      decide
    have hs : serverConn.isServer = true := rfl
    have hc : serverConn.isClosed = false := by decide
    simp only [hp, hs, if_true, hh] at hg
    simp only [Conn.WritePing, Conn.WriteMessage, hc, Conn.doWrite, hg]
    simp [WriteN, serverConn, Buffer.Bytes, BufferPool.Put, Conn.emitError, emptyPool]
  exact general _ (List.length_replicate 126 0)

/-! ## Facts about the broadcaster -/

theorem slotOf_lt (s : Conn) : slotOf s < 2 := by
  unfold slotOf
  split <;> omega

theorem compressData_conn (c : Conn) (pool : BufferPool) (key : MaskKey)
    (opcode : Opcode) (payload : List Byte) :
    (c.compressData pool key opcode payload).2.1
      = { c with compressor :=
            { c.compressor with state := (c.compressor.run c.compressor.state payload).2 } } := by
  unfold Conn.compressData
  simp only [Compressor.Compress]
  rcases c.compressor.run c.compressor.state payload with ⟨r, s⟩
  cases r with
  | error e => rfl
  | ok Z =>
    simp only []
    split_ifs <;> rfl

theorem genFrame_conn (c : Conn) (pool : BufferPool) (key : MaskKey)
    (opcode : Opcode) (payload : List Byte) :
    ∃ z : Compressor, (c.genFrame pool key opcode payload).2.1 = { c with compressor := z } := by
  cases ht : c.textRejected opcode payload
  · cases hc : c.compresses opcode payload
    · by_cases hsize : (payload.length : Int) ≤ c.config.WriteMaxPayloadSize
      · exact ⟨c.compressor, by rw [genFrame_plain_eq c pool key opcode payload ht hc hsize]⟩
      · exact ⟨c.compressor,
          by rw [genFrame_plain_too_large c pool key opcode payload ht hc (not_le.mp hsize)]⟩
    · exact ⟨_, by rw [genFrame_compress_eq c pool key opcode payload ht hc,
        compressData_conn]⟩
  · exact ⟨c.compressor, by rw [genFrame_text_error c pool key opcode payload ht]⟩

theorem genFrame_compressEnabled (c : Conn) (pool : BufferPool) (key : MaskKey)
    (opcode : Opcode) (payload : List Byte) :
    (c.genFrame pool key opcode payload).2.1.compressEnabled = c.compressEnabled := by
  obtain ⟨z, hz⟩ := genFrame_conn c pool key opcode payload
  rw [hz]

theorem setMsg_msg_self (c : Broadcaster) (idx : Nat) : c.setMsg idx (c.msg idx) = c := by
  unfold Broadcaster.setMsg Broadcaster.msg
  split <;> rfl

theorem msg_setMsg (c : Broadcaster) (idx k : Nat) (m : broadcastMessageWrapper)
    (hidx : idx < 2) (hk : k < 2) :
    (c.setMsg idx m).msg k = if k = idx then m else c.msg k := by
  unfold Broadcaster.setMsg Broadcaster.msg
  interval_cases idx <;> interval_cases k <;> simp

/-- `Broadcast` on a slot whose `once` has fired. -/
theorem Broadcast_reuse (c : Broadcaster) (socket : Conn) (pool : BufferPool) (key : MaskKey)
    (h : (c.msg (slotOf socket)).once = true) :
    c.Broadcast socket pool key
      = match (c.msg (slotOf socket)).err with
        | some err => (some err, c, socket, pool)
        | none =>
          (none, { c with state := c.state + 1 },
            socket.push { frame := (c.msg (slotOf socket)).frame, execute := Executor.broadcast },
            pool) := by
  unfold Broadcaster.Broadcast
  simp only [h, if_true, setMsg_msg_self]

/-- `Broadcast` on a slot whose `once` has not fired yet. -/
theorem Broadcast_first (c : Broadcaster) (socket : Conn) (pool : BufferPool) (key : MaskKey)
    (h : (c.msg (slotOf socket)).once = false) :
    (c.Broadcast socket pool key).2.1.msg (slotOf socket)
      = wrapperOf (socket.genFrame pool key c.opcode c.payload).1 := by
  unfold Broadcaster.Broadcast
  simp only [h]
  rcases socket.genFrame pool key c.opcode c.payload with ⟨r, s, p⟩
  cases r with
  | ok f => simp [wrapperOf, Broadcaster.msg, Broadcaster.setMsg]; split <;> simp
  | error e => simp [wrapperOf, Broadcaster.msg, Broadcaster.setMsg]; split <;> simp

theorem setMsg_state (c : Broadcaster) (idx : Nat) (m : broadcastMessageWrapper) :
    (c.setMsg idx m).state = c.state := by
  unfold Broadcaster.setMsg
  split <;> rfl

/-- `Broadcast` in one equation: the slot after `once.Do`, then the error test. -/
theorem Broadcast_eq (c : Broadcaster) (socket : Conn) (pool : BufferPool) (key : MaskKey) :
    c.Broadcast socket pool key
      = (match (if (c.msg (slotOf socket)).once then c.msg (slotOf socket)
            else wrapperOf (socket.genFrame pool key c.opcode c.payload).1).err with
        | some err =>
          (some err,
            c.setMsg (slotOf socket)
              (if (c.msg (slotOf socket)).once then c.msg (slotOf socket)
                else wrapperOf (socket.genFrame pool key c.opcode c.payload).1),
            if (c.msg (slotOf socket)).once then socket
              else (socket.genFrame pool key c.opcode c.payload).2.1,
            if (c.msg (slotOf socket)).once then pool
              else (socket.genFrame pool key c.opcode c.payload).2.2)
        | none =>
          (none,
            { c.setMsg (slotOf socket)
                (if (c.msg (slotOf socket)).once then c.msg (slotOf socket)
                  else wrapperOf (socket.genFrame pool key c.opcode c.payload).1) with
              state := c.state + 1 },
            (if (c.msg (slotOf socket)).once then socket
              else (socket.genFrame pool key c.opcode c.payload).2.1).push
              { frame := (if (c.msg (slotOf socket)).once then c.msg (slotOf socket)
                  else wrapperOf (socket.genFrame pool key c.opcode c.payload).1).frame,
                execute := Executor.broadcast },
            if (c.msg (slotOf socket)).once then pool
              else (socket.genFrame pool key c.opcode c.payload).2.2)) := by
  unfold Broadcaster.Broadcast
  cases ho : (c.msg (slotOf socket)).once
  · rcases hg : socket.genFrame pool key c.opcode c.payload with ⟨r, s, p⟩
    cases r <;> simp [ho, wrapperOf, setMsg_state]
  · cases he : (c.msg (slotOf socket)).err <;> simp [ho, he, setMsg_state]

theorem Broadcast_msg (c : Broadcaster) (socket : Conn) (pool : BufferPool) (key : MaskKey)
    (k : Nat) (hk : k < 2) :
    (c.Broadcast socket pool key).2.1.msg k
      = if k = slotOf socket ∧ (c.msg k).once = false
        then wrapperOf (socket.genFrame pool key c.opcode c.payload).1
        else c.msg k := by
  have hmsg : ∀ (b : Broadcaster) (st : Int), ({ b with state := st } : Broadcaster).msg k
      = b.msg k := fun _ _ => rfl
  rw [Broadcast_eq]
  split <;>
  · simp only [hmsg, msg_setMsg _ _ _ _ (slotOf_lt socket) hk]
    by_cases hs : k = slotOf socket
    · subst hs
      cases (c.msg (slotOf socket)).once <;> simp
    · simp [hs]


theorem msg_congr (b b2 : Broadcaster) (k : Nat) (h : b2.msgs = b.msgs) : b2.msg k = b.msg k := by
  unfold Broadcaster.msg
  rw [h]

theorem Broadcast_socket (c : Broadcaster) (socket : Conn) (pool : BufferPool) (key : MaskKey) :
    (c.Broadcast socket pool key).2.2.1.compressEnabled = socket.compressEnabled := by
  rw [Broadcast_eq]
  split <;> split <;> simp [Conn.push, genFrame_compressEnabled]

theorem Broadcast_opcode (c : Broadcaster) (socket : Conn) (pool : BufferPool) (key : MaskKey) :
    (c.Broadcast socket pool key).2.1.opcode = c.opcode
    ∧ (c.Broadcast socket pool key).2.1.payload = c.payload := by
  have h : ∀ (idx : Nat) (m : broadcastMessageWrapper),
      (c.setMsg idx m).opcode = c.opcode ∧ (c.setMsg idx m).payload = c.payload := by
    intro idx m
    unfold Broadcaster.setMsg
    split <;> exact ⟨rfl, rfl⟩
  rw [Broadcast_eq]
  split <;> simp [h]

theorem Close_fields (c : Broadcaster) (pool : BufferPool) :
    (c.Close pool).1.msgs = c.msgs ∧ (c.Close pool).1.opcode = c.opcode
    ∧ (c.Close pool).1.payload = c.payload := by
  unfold Broadcaster.Close
  simp only []
  split <;> exact ⟨rfl, rfl, rfl⟩

theorem runJob_fields (c : Broadcaster) (socket : Conn) (pool : BufferPool) :
    (runJob c socket pool).1.msgs = c.msgs ∧ (runJob c socket pool).1.opcode = c.opcode
    ∧ (runJob c socket pool).1.payload = c.payload
    ∧ (runJob c socket pool).2.1.compressEnabled = socket.compressEnabled := by
  unfold runJob
  cases hq : socket.writeQueue with
  | nil => exact ⟨rfl, rfl, rfl, rfl⟩
  | cons job rest =>
    simp only []
    cases job.execute with
    | writeAsyncFunc =>
      simp only [writeAsyncFunc]
      split <;> simp
    | broadcast =>
      simp only [Broadcaster.writeAsyncFunc]
      split
      · simp
      · split <;> simp

theorem step_slot (w : World) (op : Op) (i : Nat) :
    slotOf ((step w op).sockets i) = slotOf (w.sockets i) := by
  have key : ((step w op).sockets i).compressEnabled = (w.sockets i).compressEnabled := by
    cases op with
    | Broadcast j k =>
      simp only [step]
      by_cases hij : i = j
      · subst hij
        simp [Broadcast_socket]
      · simp [Function.update_noteq hij]
    | Close => simp [step]
    | run j =>
      simp only [step]
      by_cases hij : i = j
      · subst hij
        simp [(runJob_fields _ _ _).2.2.2]
      · simp [Function.update_noteq hij]
  unfold slotOf
  rw [key]

theorem step_opcode (w : World) (op : Op) :
    (step w op).bc.opcode = w.bc.opcode ∧ (step w op).bc.payload = w.bc.payload := by
  cases op with
  | Broadcast j k => simpa [step] using Broadcast_opcode w.bc (w.sockets j) w.binaryPool k
  | Close =>
    have h := Close_fields w.bc w.binaryPool
    exact ⟨by simpa [step] using h.2.1, by simpa [step] using h.2.2⟩
  | run j =>
    have h := runJob_fields w.bc (w.sockets j) w.binaryPool
    exact ⟨by simpa [step] using h.2.1, by simpa [step] using h.2.2.1⟩

/-- A step leaves a slot alone unless it is the first `Broadcast` to that slot. -/
theorem step_msg (w : World) (op : Op) (k : Nat) (hk : k < 2)
    (h : (w.bc.msg k).once = true ∨ ∀ i key, op = Op.Broadcast i key → slotOf (w.sockets i) ≠ k) :
    (step w op).bc.msg k = w.bc.msg k := by
  cases op with
  | Broadcast j key =>
    simp only [step]
    rw [Broadcast_msg _ _ _ _ k hk]
    rcases h with h | h
    · simp [h]
    · have := h j key rfl
      simp [Ne.symm this]
  | Close =>
    exact msg_congr _ _ k (by simpa [step] using (Close_fields w.bc w.binaryPool).1)
  | run j =>
    exact msg_congr _ _ k
      (by simpa [step] using (runJob_fields w.bc (w.sockets j) w.binaryPool).1)

theorem runOps_slot (ops : List Op) (w : World) (i : Nat) :
    slotOf ((runOps w ops).sockets i) = slotOf (w.sockets i) := by
  induction ops generalizing w with
  | nil => rfl
  | cons op rest ih =>
    show slotOf ((runOps (step w op) rest).sockets i) = _
    rw [ih, step_slot]

theorem runOps_opcode (ops : List Op) (w : World) :
    (runOps w ops).bc.opcode = w.bc.opcode ∧ (runOps w ops).bc.payload = w.bc.payload := by
  induction ops generalizing w with
  | nil => exact ⟨rfl, rfl⟩
  | cons op rest ih =>
    show (runOps (step w op) rest).bc.opcode = _ ∧ (runOps (step w op) rest).bc.payload = _
    rw [(ih (step w op)).1, (ih (step w op)).2]
    exact step_opcode w op

theorem runOps_msg_fired (ops : List Op) (w : World) (k : Nat) (hk : k < 2)
    (h : (w.bc.msg k).once = true) : (runOps w ops).bc.msg k = w.bc.msg k := by
  induction ops generalizing w with
  | nil => rfl
  | cons op rest ih =>
    have hs := step_msg w op k hk (Or.inl h)
    show (runOps (step w op) rest).bc.msg k = _
    rw [ih (step w op) (by rw [hs]; exact h), hs]

theorem runOps_msg_other (ops : List Op) (w : World) (k : Nat) (hk : k < 2)
    (h : ∀ i key, Op.Broadcast i key ∈ ops → slotOf (w.sockets i) ≠ k) :
    (runOps w ops).bc.msg k = w.bc.msg k := by
  induction ops generalizing w with
  | nil => rfl
  | cons op rest ih =>
    have hs := step_msg w op k hk
      (Or.inr (fun i key he => h i key (by rw [he]; exact List.mem_cons_self _ _)))
    show (runOps (step w op) rest).bc.msg k = _
    rw [ih (step w op) (fun i key hm => by
      rw [step_slot]
      exact h i key (List.mem_cons_of_mem _ hm)), hs]


/-! ## Claims about the broadcaster -/

theorem wrapperOf_once (r : Except GoError Buffer) : (wrapperOf r).once = true := by
  cases r <;> rfl

theorem runOps_append (w : World) (xs ys : List Op) :
    runOps w (xs ++ ys) = runOps (runOps w xs) ys := by
  simp [runOps, List.foldl_append]

/-- The slot reached first by `Broadcast t` keeps the result of that `genFrame`, and a
later `Broadcast` to the same slot is computed from it. -/
theorem Broadcast_slot_stable (w : World) (pre post : List Op) (t u : Nat)
    (kt ku : MaskKey)
    (hfresh : (w.bc.msg (slotOf (w.sockets t))).once = false)
    (hpre : ∀ i key, Op.Broadcast i key ∈ pre → slotOf (w.sockets i) ≠ slotOf (w.sockets t))
    (hu : slotOf (w.sockets u) = slotOf (w.sockets t)) :
    (runOps w (pre ++ Op.Broadcast t kt :: post)).bc.msg (slotOf (w.sockets t))
      = wrapperOf (((runOps w pre).sockets t).genFrame (runOps w pre).binaryPool kt
          w.bc.opcode w.bc.payload).1
    ∧ (runOps w (pre ++ Op.Broadcast t kt :: post)).bc.Broadcast
          ((runOps w (pre ++ Op.Broadcast t kt :: post)).sockets u)
          (runOps w (pre ++ Op.Broadcast t kt :: post)).binaryPool ku
        = (match (((runOps w pre).sockets t).genFrame (runOps w pre).binaryPool kt
              w.bc.opcode w.bc.payload).1 with
          | .error err =>
            (some err, (runOps w (pre ++ Op.Broadcast t kt :: post)).bc,
              (runOps w (pre ++ Op.Broadcast t kt :: post)).sockets u,
              (runOps w (pre ++ Op.Broadcast t kt :: post)).binaryPool)
          | .ok frame =>
            (none,
              { (runOps w (pre ++ Op.Broadcast t kt :: post)).bc with
                state := (runOps w (pre ++ Op.Broadcast t kt :: post)).bc.state + 1 },
              ((runOps w (pre ++ Op.Broadcast t kt :: post)).sockets u).push
                { frame := some frame, execute := Executor.broadcast },
              (runOps w (pre ++ Op.Broadcast t kt :: post)).binaryPool)) := by
  have hk := slotOf_lt (w.sockets t)
  have h1 : ((runOps w pre).bc.msg (slotOf (w.sockets t))).once = false := by
    rw [runOps_msg_other pre w _ hk hpre]
    exact hfresh
  have h2 : (step (runOps w pre) (Op.Broadcast t kt)).bc.msg (slotOf (w.sockets t))
      = wrapperOf (((runOps w pre).sockets t).genFrame (runOps w pre).binaryPool kt
          w.bc.opcode w.bc.payload).1 := by
    simp only [step]
    rw [Broadcast_msg _ _ _ _ _ hk, runOps_slot, (runOps_opcode pre w).1,
      (runOps_opcode pre w).2]
    simp [h1]
  have h3 : (runOps w (pre ++ Op.Broadcast t kt :: post)).bc.msg (slotOf (w.sockets t))
      = wrapperOf (((runOps w pre).sockets t).genFrame (runOps w pre).binaryPool kt
          w.bc.opcode w.bc.payload).1 := by
    rw [runOps_append]
    show (runOps (step (runOps w pre) (Op.Broadcast t kt)) post).bc.msg _ = _
    rw [runOps_msg_fired post _ _ hk (by rw [h2]; exact wrapperOf_once _), h2]
  refine ⟨h3, ?_⟩
  have hslot : slotOf ((runOps w (pre ++ Op.Broadcast t kt :: post)).sockets u)
      = slotOf (w.sockets t) := by
    rw [runOps_slot, hu]
  rw [Broadcast_reuse _ _ _ _ (by rw [hslot, h3]; exact wrapperOf_once _), hslot, h3]
  cases (((runOps w pre).sockets t).genFrame (runOps w pre).binaryPool kt
    w.bc.opcode w.bc.payload).1 <;> rfl

theorem msg_slotOf (b : Broadcaster) (s : Conn) :
    b.msg (slotOf s) = if s.compressEnabled then b.msgs.2 else b.msgs.1 := by
  unfold Broadcaster.msg slotOf
  cases s.compressEnabled <;> simp

theorem slotOf_eq_iff (s t : Conn) :
    slotOf s = slotOf t ↔ s.compressEnabled = t.compressEnabled := by
  unfold slotOf
  cases s.compressEnabled <;> cases t.compressEnabled <;> simp

/-- C8: in any run of broadcaster operations, take the first Broadcast whose target
has a given compressEnabled flag, the slot of that flag (msgs[1] for compressing
targets, msgs[0] for the others) not having been used before. From then on, through
every later operation, that slot holds the frame or the error that genFrame
returned for this first target, and a later Broadcast to any target with the same
flag is computed from the stored slot alone: with a stored error it returns that
error and changes neither broadcaster, counter, target nor pool; with a stored
frame it returns nil, adds one to the counter, appends to the write queue of the
target one job holding that same frame buffer, and takes no buffer from the pool,
so genFrame is not called again. -/
theorem Broadcast_generates_once (w : World) (pre post : List Op) (t u : Nat)
    (kt ku : MaskKey)
    (hfresh : (if (w.sockets t).compressEnabled then w.bc.msgs.2 else w.bc.msgs.1).once = false)
    (hpre : ∀ i key, Op.Broadcast i key ∈ pre →
      (w.sockets i).compressEnabled ≠ (w.sockets t).compressEnabled)
    (hu : (w.sockets u).compressEnabled = (w.sockets t).compressEnabled) :
    (if (w.sockets t).compressEnabled
        then (runOps w (pre ++ Op.Broadcast t kt :: post)).bc.msgs.2
        else (runOps w (pre ++ Op.Broadcast t kt :: post)).bc.msgs.1)
      = (match (((runOps w pre).sockets t).genFrame (runOps w pre).binaryPool kt
            w.bc.opcode w.bc.payload).1 with
        | .ok frame => { once := true, err := none, frame := some frame }
        | .error err => { once := true, err := some err, frame := none })
    ∧ (runOps w (pre ++ Op.Broadcast t kt :: post)).bc.Broadcast
          ((runOps w (pre ++ Op.Broadcast t kt :: post)).sockets u)
          (runOps w (pre ++ Op.Broadcast t kt :: post)).binaryPool ku
        = (match (((runOps w pre).sockets t).genFrame (runOps w pre).binaryPool kt
              w.bc.opcode w.bc.payload).1 with
          | .error err =>
            (some err, (runOps w (pre ++ Op.Broadcast t kt :: post)).bc,
              (runOps w (pre ++ Op.Broadcast t kt :: post)).sockets u,
              (runOps w (pre ++ Op.Broadcast t kt :: post)).binaryPool)
          | .ok frame =>
            (none,
              { (runOps w (pre ++ Op.Broadcast t kt :: post)).bc with
                state := (runOps w (pre ++ Op.Broadcast t kt :: post)).bc.state + 1 },
              { (runOps w (pre ++ Op.Broadcast t kt :: post)).sockets u with
                writeQueue :=
                  ((runOps w (pre ++ Op.Broadcast t kt :: post)).sockets u).writeQueue
                    ++ [{ frame := some frame, execute := Executor.broadcast }] },
              (runOps w (pre ++ Op.Broadcast t kt :: post)).binaryPool)) := by
  have h := Broadcast_slot_stable w pre post t u kt ku
    (by rw [msg_slotOf]; exact hfresh)
    (fun i key hm => fun hs => hpre i key hm ((slotOf_eq_iff _ _).mp hs))
    ((slotOf_eq_iff _ _).mpr hu)
  rw [msg_slotOf] at h
  refine ⟨?_, ?_⟩
  · rw [h.1]
    cases (((runOps w pre).sockets t).genFrame (runOps w pre).binaryPool kt
      w.bc.opcode w.bc.payload).1 <;> rfl
  · rw [h.2]
    cases (((runOps w pre).sockets t).genFrame (runOps w pre).binaryPool kt
      w.bc.opcode w.bc.payload).1 <;> rfl

/-- C8 on connections of both kinds: after Broadcasts to a plain connection and to
a compressing one, msgs[1] holds the compressed frame generated for connection 1,
and a Broadcast to connection 3, which also compresses, queues that very buffer
while the pool still counts two buffers handed out; on connections that refuse the
message as too large, the stored error comes back with nothing changed. -/
theorem Broadcast_generates_once_witness :
    (runOps mixedWorld ([Op.Broadcast 0 sampleKey] ++ Op.Broadcast 1 sampleKey
          :: [Op.Broadcast 2 sampleKey, Op.run 0])).bc.msgs.2
      = { once := true, err := none,
          frame := some ⟨1, [0, 0, 0, 0, 0, 0, 0, 0, 0, 0, 0, 0, 0xC2, 5, 1, 2, 3, 4, 5], 12⟩ }
    ∧ ((runOps mixedWorld ([Op.Broadcast 0 sampleKey] ++ Op.Broadcast 1 sampleKey
          :: [Op.Broadcast 2 sampleKey, Op.run 0])).bc.Broadcast
        ((runOps mixedWorld ([Op.Broadcast 0 sampleKey] ++ Op.Broadcast 1 sampleKey
          :: [Op.Broadcast 2 sampleKey, Op.run 0])).sockets 3)
        (runOps mixedWorld ([Op.Broadcast 0 sampleKey] ++ Op.Broadcast 1 sampleKey
          :: [Op.Broadcast 2 sampleKey, Op.run 0])).binaryPool sampleKey).2.2.1.writeQueue
      = [{ frame :=
              some ⟨1, [0, 0, 0, 0, 0, 0, 0, 0, 0, 0, 0, 0, 0xC2, 5, 1, 2, 3, 4, 5], 12⟩,
            execute := Executor.broadcast }]
    ∧ ((runOps mixedWorld ([Op.Broadcast 0 sampleKey] ++ Op.Broadcast 1 sampleKey
          :: [Op.Broadcast 2 sampleKey, Op.run 0])).bc.Broadcast
        ((runOps mixedWorld ([Op.Broadcast 0 sampleKey] ++ Op.Broadcast 1 sampleKey
          :: [Op.Broadcast 2 sampleKey, Op.run 0])).sockets 3)
        (runOps mixedWorld ([Op.Broadcast 0 sampleKey] ++ Op.Broadcast 1 sampleKey
          :: [Op.Broadcast 2 sampleKey, Op.run 0])).binaryPool sampleKey).2.2.2
      = { issued := 2, returned := [] }
    ∧ ((runOps (freshWorld tinyConn) ([] ++ Op.Broadcast 0 sampleKey :: [])).bc.Broadcast
          ((runOps (freshWorld tinyConn) ([] ++ Op.Broadcast 0 sampleKey :: [])).sockets 1)
          (runOps (freshWorld tinyConn) ([] ++ Op.Broadcast 0 sampleKey :: [])).binaryPool
          sampleKey)
        = (some (GoError.StatusCode CloseMessageTooLarge),
            (runOps (freshWorld tinyConn) ([] ++ Op.Broadcast 0 sampleKey :: [])).bc,
            tinyConn, emptyPool) := by
  have h := Broadcast_generates_once mixedWorld [Op.Broadcast 0 sampleKey]
    [Op.Broadcast 2 sampleKey, Op.run 0] 1 3 sampleKey sampleKey rfl
    (by
      intro i key hm
      simp only [List.mem_singleton, Op.Broadcast.injEq] at hm
      rw [hm.1]
      decide)
    rfl
  have h2 := Broadcast_generates_once (freshWorld tinyConn) [] [] 0 1 sampleKey
    sampleKey rfl (by simp) rfl
  refine ⟨h.1, ?_, ?_, ?_⟩
  · rw [h.2]
    rfl
  · rw [h.2]
    rfl
  · rw [h2.2]
    rfl

/-- C7 fails on the code: one Broadcast to a connection that is closed when its job
runs, then Close, then the job. The job returns at the isClosed test before the
counter is decremented, so the counter stays at 1 although Close and the only job
execution are over, and the generated frame is never put back to the pool. The
same three steps on an open connection end with the counter at 0 and the frame
back in the pool. -/
theorem closed_target_never_releases :
    ((runOps (freshWorld closedConn) [Op.Broadcast 0 sampleKey, Op.Close, Op.run 0]).bc.state = 1
      ∧ (runOps (freshWorld closedConn)
          [Op.Broadcast 0 sampleKey, Op.Close, Op.run 0]).binaryPool.returned = []
      ∧ ((runOps (freshWorld closedConn)
          [Op.Broadcast 0 sampleKey, Op.Close, Op.run 0]).sockets 0).writeQueue = []
      ∧ ((runOps (freshWorld closedConn)
          [Op.Broadcast 0 sampleKey, Op.Close, Op.run 0]).bc.msg 0).frame
          = some ⟨0, [0x82, 2, 0x68, 0x69], 0⟩)
    ∧ ((runOps (freshWorld serverConn) [Op.Broadcast 0 sampleKey, Op.Close, Op.run 0]).bc.state = 0
      ∧ (runOps (freshWorld serverConn)
          [Op.Broadcast 0 sampleKey, Op.Close, Op.run 0]).binaryPool.returned = [0]) := by
  refine ⟨⟨by decide, by decide, by decide, by decide⟩, by decide, by decide⟩

/-- C10: the interleaving Broadcast, Close, job execution brings the counter to
zero and puts the frame buffer back to the pool; the Broadcast that follows still
succeeds, raises the counter to 1 and queues a job holding that released buffer. -/
theorem Close_before_last_Broadcast :
    ∃ (pre : List Op) (i : Nat) (key : MaskKey) (frame : Buffer),
      Op.Close ∈ pre
      ∧ (runOps (freshWorld serverConn) pre).bc.state = 0
      ∧ ((runOps (freshWorld serverConn) pre).bc.msg
            (slotOf ((runOps (freshWorld serverConn) pre).sockets i))).frame = some frame
      ∧ frame.id ∈ (runOps (freshWorld serverConn) pre).binaryPool.returned
      ∧ ((step (runOps (freshWorld serverConn) pre) (Op.Broadcast i key)).sockets i).writeQueue
          = [{ frame := some frame, execute := Executor.broadcast }]
      ∧ (step (runOps (freshWorld serverConn) pre) (Op.Broadcast i key)).bc.state = 1 :=
  ⟨[Op.Broadcast 0 sampleKey, Op.Close, Op.run 0], 0, sampleKey, ⟨0, [0x82, 2, 0x68, 0x69], 0⟩,
    by decide, by decide, by decide, by decide, by decide, by decide⟩


end Gws
